import Mathlib

/-!
Verification of the Context Acquisition Subsystem of OpenAgentsControl
(`plugins/claude-code/scripts`).  The development embeds, from the source:

* the registry data model and the filtering functions of
  `scripts/utils/registry-fetcher.ts`;
* the Zod schema validation of `scripts/types/registry.ts`, over a small
  JSON value type;
* the control flow of the TypeScript installer `scripts/install-context.ts`
  together with the scratch-directory handling of
  `scripts/utils/git-sparse.ts`, as a function from an abstract
  environment (which external steps succeed) to an outcome recording the
  observable effects;
* the control flow of the Node installer `scripts/install-context.js`;
* the profile→category tables of all three installer variants;
* the context-discovery protocol of
  `skills/context-discovery/context-discovery-protocol.md`.
-/

/-! ## Registry data model (`scripts/types/registry.ts`) -/

/-- One installable unit, the shape accepted by `ComponentSchema`. -/
structure Component where
  id : String
  name : String
  type : String
  path : String
  description : Option String := none
  tags : Option (List String) := none
  dependencies : Option (List String) := none
  category : String
  files : Option (List String) := none
  aliases : Option (List String) := none
  version : Option String := none
deriving DecidableEq, Repr

/-- The `components` object of `RegistrySchema`: eight optional lists. -/
structure RegistryComponents where
  agents : Option (List Component) := none
  subagents : Option (List Component) := none
  commands : Option (List Component) := none
  tools : Option (List Component) := none
  plugins : Option (List Component) := none
  skills : Option (List Component) := none
  contexts : Option (List Component) := none
  config : Option (List Component) := none
deriving DecidableEq, Repr

/-- The full catalog accepted by `RegistrySchema`; `categories` is a
string→string record, kept as an association list. -/
structure Registry where
  version : String
  schema_version : String
  repository : String
  categories : List (String × String)
  components : RegistryComponents
deriving DecidableEq, Repr

/-- The `Profile` union type of `scripts/types/registry.ts`. -/
inductive Profile where
  | essential
  | standard
  | extended
  | specialized
  | all
deriving DecidableEq, Repr

/-! ## Registry fetcher filters (`scripts/utils/registry-fetcher.ts`) -/

/-- The `profileCategories` table inside `filterContextByProfile`
(lines 72–78); the `all` entry is the unused empty list, `all` being
handled before the table is consulted. -/
def profileCategories : Profile → List String
  | .essential => ["essential", "core"]
  | .standard => ["essential", "core", "standard"]
  | .extended => ["essential", "core", "standard", "extended"]
  | .specialized => ["essential", "core", "standard", "extended", "specialized"]
  | .all => []

/-- `filterContextByProfile` (lines 61–87): `all` returns every context
component; otherwise keep the context components whose category appears
in the profile's category list. -/
def filterContextByProfile (registry : Registry) (profile : Profile) :
    List Component :=
  let contexts := registry.components.contexts.getD []
  if profile = .all then contexts
  else contexts.filter (fun c => (profileCategories profile).contains c.category)

/-- `filterContextByIds` (lines 92–99): keep the context components whose
id appears in the explicit id list. -/
def filterContextByIds (registry : Registry) (componentIds : List String) :
    List Component :=
  let contexts := registry.components.contexts.getD []
  contexts.filter (fun c => componentIds.contains c.id)

/-- JS `String.prototype.split` with a one-character separator, as a
structural recursion over the character list: the string is cut at
every occurrence of the separator, and `""` splits to `[""]`. -/
def jsSplitAux (sep : Char) : List Char → List Char → List String
  | [], acc => [String.mk acc.reverse]
  | c :: cs, acc =>
    if c = sep then String.mk acc.reverse :: jsSplitAux sep cs []
    else jsSplitAux sep cs (c :: acc)

def jsSplit (s : String) (sep : Char) : List String :=
  jsSplitAux sep s.data []

/-- The directory part of a component path as computed inside
`getUniquePaths`: split on `/`, drop the final segment, rejoin. -/
def dirOfPath (p : String) : String :=
  String.intercalate "/" ((jsSplit p '/').dropLast)

/-- One iteration of the `getUniquePaths` loop: add the component's
directory part to the accumulated JS `Set` (kept as a list in insertion
order) when it is nonempty and not yet present. -/
def addPath (paths : List String) (c : Component) : List String :=
  let dirPath := dirOfPath c.path
  if dirPath = "" then paths
  else if dirPath ∈ paths then paths
  else paths ++ [dirPath]

/-- `getUniquePaths` (lines 104–119): collect the nonempty directory
parts into a JS `Set` (insertion order, first occurrence kept) and
return them as a list. -/
def getUniquePaths (components : List Component) : List String :=
  components.foldl addPath []

/-- Position of a profile in the cumulative ordering
essential, standard, extended, specialized, all. -/
def profileRank : Profile → Nat
  | .essential => 0
  | .standard => 1
  | .extended => 2
  | .specialized => 3
  | .all => 4

theorem contains_mono {l₁ l₂ : List String} (hsub : ∀ s ∈ l₁, s ∈ l₂)
    {s : String} (h : l₁.contains s = true) : l₂.contains s = true := by
  simp only [List.contains, List.elem_eq_mem, decide_eq_true_iff] at h ⊢
  exact hsub s h

theorem mem_filterByProfile_of_subset {registry : Registry} {A B : Profile}
    (hA : A ≠ .all) (hB : B ≠ .all)
    (hsub : ∀ s ∈ profileCategories A, s ∈ profileCategories B)
    {c : Component} (hc : c ∈ filterContextByProfile registry A) :
    c ∈ filterContextByProfile registry B := by
  unfold filterContextByProfile at hc ⊢
  rw [if_neg hA] at hc
  rw [if_neg hB]
  rw [List.mem_filter] at hc ⊢
  exact ⟨hc.1, contains_mono hsub hc.2⟩

theorem mem_filterByProfile_all {registry : Registry} {p : Profile}
    {c : Component} (hc : c ∈ filterContextByProfile registry p) :
    c ∈ filterContextByProfile registry .all := by
  unfold filterContextByProfile at hc ⊢
  rw [if_pos rfl]
  by_cases hp : p = Profile.all
  · rw [if_pos hp] at hc
    exact hc
  · rw [if_neg hp] at hc
    exact List.mem_of_mem_filter hc

/-- C1: profile filtering is monotone along the cumulative ordering
essential ≤ standard ≤ extended ≤ specialized ≤ all: every component
selected for a smaller profile is selected for any larger one, and the
`all` profile selects a superset of every profile's result. -/
theorem filterByProfile_monotone :
    (∀ (registry : Registry) (A B : Profile) (c : Component),
        profileRank A ≤ profileRank B →
        c ∈ filterContextByProfile registry A →
        c ∈ filterContextByProfile registry B) ∧
    (∀ (registry : Registry) (p : Profile) (c : Component),
        c ∈ filterContextByProfile registry p →
        c ∈ filterContextByProfile registry .all) := by
  constructor
  · intro registry A B c hrank hc
    cases B
    case all => exact mem_filterByProfile_all hc
    all_goals cases A
    all_goals first
      | exact absurd hrank (by decide)
      | exact mem_filterByProfile_of_subset (by decide) (by decide)
          (by decide) hc
  · intro registry p c hc
    exact mem_filterByProfile_all hc

/-- A one-component sample registry used by the witnesses. -/
def sampleComponent : Component :=
  { id := "core-standards"
    name := "Core Standards"
    type := "context"
    path := ".opencode/context/core/standards/typescript.md"
    category := "core" }

/-- A context component living at the repository top level (no `/` in its
path), used by the C10 theorems. -/
def rootComponent : Component :=
  { id := "root-readme"
    name := "Root Readme"
    type := "context"
    path := "README.md"
    category := "core" }

def sampleRegistry : Registry :=
  { version := "1.0.0"
    schema_version := "1.0"
    repository := "darrenhinde/OpenAgentsControl"
    categories := [("core", "Core standards"), ("extended", "Extended docs")]
    components := { contexts := some [sampleComponent] } }

/-- Witness for C1 at a concrete registry: the sample component selected
by `essential` is also selected by `standard`, and by `all`. -/
theorem filterByProfile_monotone_witness :
    sampleComponent ∈ filterContextByProfile sampleRegistry .standard ∧
    sampleComponent ∈ filterContextByProfile sampleRegistry .all :=
  ⟨filterByProfile_monotone.1 sampleRegistry .essential .standard
      sampleComponent (by decide) (by decide),
   filterByProfile_monotone.2 sampleRegistry .essential sampleComponent
      (by decide)⟩

/-- C8: `filterContextByIds` keeps exactly the context components whose
id is in the explicit id list, and an id matching no component can be
appended to the list without changing the result (it is silently
dropped; the function is total, so no error is raised). -/
theorem filterByIds_exact :
    (∀ (registry : Registry) (ids : List String) (c : Component),
        c ∈ filterContextByIds registry ids ↔
          c ∈ registry.components.contexts.getD [] ∧ c.id ∈ ids) ∧
    (∀ (registry : Registry) (ids : List String) (badId : String),
        badId ∉ (registry.components.contexts.getD []).map Component.id →
        filterContextByIds registry (ids ++ [badId]) =
          filterContextByIds registry ids) := by
  constructor
  · intro registry ids c
    unfold filterContextByIds
    rw [List.mem_filter]
    simp [List.contains, List.elem_eq_mem]
  · intro registry ids badId hbad
    unfold filterContextByIds
    apply List.filter_congr
    intro c hc
    have hne : c.id ≠ badId := by
      intro h
      exact hbad (h ▸ List.mem_map_of_mem Component.id hc)
    simp [List.contains, List.elem_eq_mem, List.mem_append, hne]

/-- Witness for C8: against the sample registry, the unresolvable id
`does-not-exist` is dropped without effect and `core-standards`
resolves to the sample component. -/
theorem filterByIds_exact_witness :
    filterContextByIds sampleRegistry ["core-standards", "does-not-exist"] =
      filterContextByIds sampleRegistry ["core-standards"] ∧
    sampleComponent ∈
      filterContextByIds sampleRegistry ["core-standards", "does-not-exist"] :=
  ⟨filterByIds_exact.2 sampleRegistry ["core-standards"] "does-not-exist"
      (by decide),
   (filterByIds_exact.1 sampleRegistry ["core-standards", "does-not-exist"]
      sampleComponent).2 ⟨by decide, by decide⟩⟩

theorem mem_addPath {paths : List String} {c : Component} {d : String} :
    d ∈ addPath paths c ↔ d ∈ paths ∨ (d ≠ "" ∧ dirOfPath c.path = d) := by
  unfold addPath
  by_cases h0 : dirOfPath c.path = ""
  · rw [if_pos h0]
    constructor
    · exact Or.inl
    · rintro (h | ⟨hne, hd⟩)
      · exact h
      · exact absurd (h0 ▸ hd).symm hne
  · rw [if_neg h0]
    by_cases hmem : dirOfPath c.path ∈ paths
    · rw [if_pos hmem]
      constructor
      · exact Or.inl
      · rintro (h | ⟨hne, hd⟩)
        · exact h
        · exact hd ▸ hmem
    · rw [if_neg hmem]
      rw [List.mem_append, List.mem_singleton]
      constructor
      · rintro (h | h)
        · exact Or.inl h
        · exact Or.inr ⟨h ▸ h0, h.symm⟩
      · rintro (h | ⟨hne, hd⟩)
        · exact Or.inl h
        · exact Or.inr hd.symm

theorem nodup_addPath {paths : List String} {c : Component}
    (h : paths.Nodup) : (addPath paths c).Nodup := by
  unfold addPath
  by_cases h0 : dirOfPath c.path = ""
  · rwa [if_pos h0]
  · rw [if_neg h0]
    by_cases hmem : dirOfPath c.path ∈ paths
    · rwa [if_pos hmem]
    · rw [if_neg hmem]
      rw [List.nodup_append]
      exact ⟨h, List.nodup_singleton _, by
        intro a ha hb
        rw [List.mem_singleton] at hb
        exact hmem (hb ▸ ha)⟩

theorem mem_foldl_addPath (cs : List Component) :
    ∀ (acc : List String) (d : String),
      d ∈ cs.foldl addPath acc ↔
        d ∈ acc ∨ (d ≠ "" ∧ ∃ c ∈ cs, dirOfPath c.path = d) := by
  induction cs with
  | nil => intro acc d; simp
  | cons c cs ih =>
    intro acc d
    rw [List.foldl_cons, ih (addPath acc c) d, mem_addPath]
    simp only [List.mem_cons]
    constructor
    · rintro ((h | ⟨hne, hd⟩) | ⟨hne, x, hx, hd⟩)
      · exact Or.inl h
      · exact Or.inr ⟨hne, c, Or.inl rfl, hd⟩
      · exact Or.inr ⟨hne, x, Or.inr hx, hd⟩
    · rintro (h | ⟨hne, x, (hx | hx), hd⟩)
      · exact Or.inl (Or.inl h)
      · exact Or.inl (Or.inr ⟨hne, hx ▸ hd⟩)
      · exact Or.inr ⟨hne, x, hx, hd⟩

theorem nodup_foldl_addPath (cs : List Component) :
    ∀ (acc : List String), acc.Nodup → (cs.foldl addPath acc).Nodup := by
  induction cs with
  | nil => intro acc h; exact h
  | cons c cs ih =>
    intro acc h
    exact ih (addPath acc c) (nodup_addPath h)

/-! ## Manifest data model (`scripts/types/manifest.ts`) -/

/-- A manifest entry (`ManifestComponentSchema`). -/
structure ManifestComponent where
  id : String
  name : String
  path : String
  local_path : String
  category : String
deriving DecidableEq, Repr

/-- The `profile` field of a manifest: a profile name or the sentinel
`custom` used when an explicit id list was supplied. -/
inductive ManifestProfile where
  | name (p : Profile)
  | custom
deriving DecidableEq, Repr

structure ManifestSource where
  repository : String
  branch : String
  commit : String
  downloaded_at : String
deriving DecidableEq, Repr

structure Manifest where
  version : String
  profile : ManifestProfile
  source : ManifestSource
  context : List ManifestComponent
deriving DecidableEq, Repr

/-! ## TypeScript installer control flow (`scripts/install-context.ts`
with the scratch handling of `scripts/utils/git-sparse.ts`).

The installer is embedded as a function from an abstract environment —
which filesystem facts hold at call time and which external commands
succeed — to an outcome recording the returned result and the
observable effects of the run. -/

def GITHUB_REPO : String := "darrenhinde/OpenAgentsControl"

def GITHUB_BRANCH : String := "main"

def CONTEXT_SOURCE_PATH : String := ".opencode/context"

/-- `path.join` restricted to the relative segments the installer joins:
plain concatenation with a separator. -/
def joinPath (a b : String) : String := a ++ "/" ++ b

/-- JS `String.replace` with a string pattern replaces the first
occurrence only. -/
def replaceFirst (s pat rep : String) : String :=
  match s.splitOn pat with
  | [] => s
  | [_] => s
  | x :: y :: rest => x ++ rep ++ String.intercalate pat (y :: rest)

/-- The manifest entry built for a selected component
(`install-context.ts`, lines 125–131 and 175–181): the `local_path`
strips the `.opencode/context/` prefix from the source path and joins
the rest onto the context directory. -/
def toManifestComponent (contextDir : String) (c : Component) :
    ManifestComponent :=
  { id := c.id
    name := c.name
    path := c.path
    local_path :=
      joinPath contextDir (replaceFirst c.path (CONTEXT_SOURCE_PATH ++ "/") "")
    category := c.category }

/-- The `InstallOptions` of `scripts/types/registry.ts` (the
output-only `verbose` flag is omitted). -/
structure InstallOptions where
  profile : Profile := .essential
  customComponents : List String := []
  dryRun : Bool := false
  force : Bool := false
deriving DecidableEq, Repr

/-- The external world one `installContext` run interacts with. -/
structure InstallEnv where
  gitAvailable : Bool
  manifestExists : Bool
  existingManifest : Manifest
  registry : Registry
  fetchOk : Bool
  cloneOk : Bool
  sparseOk : Bool
  subtreePresent : Bool
  copyOk : Bool
  oacExists : Bool
  scratchExists : Bool
deriving DecidableEq, Repr

/-- The observable effects of one `installContext` run. -/
structure InstallEffects where
  registryFetched : Bool := false
  transportInvoked : Bool := false
  sparsePathsRequested : List String := []
  copyInvoked : Bool := false
  manifestWritten : Bool := false
  oacWritten : Bool := false
  scratchExistsAfter : Bool
deriving DecidableEq, Repr

/-- The returned result of one `installContext` run (`success` and the
`manifest.context` list of the returned `InstallResult`). -/
structure InstallOutcome where
  success : Bool
  resultComponents : List ManifestComponent
  effects : InstallEffects
deriving DecidableEq, Repr

/-- `sparseClone` (`git-sparse.ts`, lines 27–84) seen through the
scratch directory: a pre-existing target directory is removed first; a
failed `git clone` removes its own partial directory; after a
successful clone the directory stays whether or not the
`sparse-checkout set` step succeeds, since the error path returns
`success: false` without removing anything.  Components: (clone
succeeded, scratch directory exists when `sparseClone` returns). -/
def sparseCloneScratch (env : InstallEnv) : Bool × Bool :=
  if !env.cloneOk then (false, false)
  else if !env.sparseOk then (false, true)
  else (true, true)

/-- The component-selection step of `installContext` (lines 92–99):
an explicit id list takes precedence over the profile. -/
def selectComponents (options : InstallOptions) (registry : Registry) :
    List Component :=
  if options.customComponents ≠ [] then
    filterContextByIds registry options.customComponents
  else filterContextByProfile registry options.profile

/-- `installContext` (`install-context.ts`, lines 48–264).  Every
`throw` lands in the `catch` of lines 244–263, which returns a failure
result with an empty component list and runs no cleanup. -/
def installContext (pluginRoot : String) (options : InstallOptions)
    (env : InstallEnv) : InstallOutcome :=
  let contextDir := joinPath pluginRoot "context"
  if !env.gitAvailable then
    { success := false, resultComponents := []
      effects := { scratchExistsAfter := env.scratchExists } }
  else if env.manifestExists && !options.force then
    { success := true
      resultComponents := env.existingManifest.context
      effects := { scratchExistsAfter := env.scratchExists } }
  else if !env.fetchOk then
    { success := false, resultComponents := []
      effects := { registryFetched := true
                   scratchExistsAfter := env.scratchExists } }
  else
    let components := selectComponents options env.registry
    let manifestComponents := components.map (toManifestComponent contextDir)
    if options.dryRun then
      { success := true
        resultComponents := manifestComponents
        effects := { registryFetched := true
                     scratchExistsAfter := env.scratchExists } }
    else
      let sparsePaths := getUniquePaths components
      let cloneRes := sparseCloneScratch env
      if !cloneRes.1 then
        { success := false, resultComponents := []
          effects := { registryFetched := true
                       transportInvoked := true
                       sparsePathsRequested := sparsePaths
                       scratchExistsAfter := cloneRes.2 } }
      else if !env.subtreePresent then
        { success := false, resultComponents := []
          effects := { registryFetched := true
                       transportInvoked := true
                       sparsePathsRequested := sparsePaths
                       copyInvoked := true
                       scratchExistsAfter := cloneRes.2 } }
      else if !env.copyOk then
        { success := false, resultComponents := []
          effects := { registryFetched := true
                       transportInvoked := true
                       sparsePathsRequested := sparsePaths
                       copyInvoked := true
                       scratchExistsAfter := cloneRes.2 } }
      else
        { success := true
          resultComponents := manifestComponents
          effects := { registryFetched := true
                       transportInvoked := true
                       sparsePathsRequested := sparsePaths
                       copyInvoked := true
                       manifestWritten := true
                       oacWritten := !env.oacExists
                       scratchExistsAfter := false } }

/-! ## Node installer control flow (`scripts/install-context.js`,
`main`, lines 188–279), after argument parsing has accepted the
options. -/

structure JsInstallOptions where
  profileName : String := "standard"
  customCategories : List String := []
  isGlobal : Bool := false
  force : Bool := false
  dryRun : Bool := false
deriving DecidableEq, Repr

/-- The pointer config document `{ version, context: { root } }`. -/
structure OacConfig where
  version : String
  root : String
deriving DecidableEq, Repr

structure JsInstallEnv where
  gitAvailable : Bool
  manifestExists : Bool
  cloneOk : Bool
  sparseOk : Bool
  subtreePresent : Bool
  copyOk : Bool
  oacExists : Bool
deriving DecidableEq, Repr

/-- Exit code of the process, whether this run wrote the manifest, and
the pointer config written by this run (if any). -/
structure JsInstallOutcome where
  exitCode : Nat
  manifestWritten : Bool
  pointer : Option OacConfig
deriving DecidableEq, Repr

/-- `main` of `install-context.js`: the idempotency gate (line 235)
precedes the git check (line 244); `downloadContext` exits the process
with code 1 on any transport failure; the pointer config
`{ version: "1", context: { root: ".claude/context" } }` is written for
project scope only, and only when absent. -/
def jsInstall (options : JsInstallOptions) (env : JsInstallEnv) :
    JsInstallOutcome :=
  if env.manifestExists && !options.force then
    { exitCode := 0, manifestWritten := false, pointer := none }
  else if !env.gitAvailable then
    { exitCode := 1, manifestWritten := false, pointer := none }
  else if options.dryRun then
    { exitCode := 0, manifestWritten := false, pointer := none }
  else if !(env.cloneOk && env.sparseOk && env.subtreePresent && env.copyOk) then
    { exitCode := 1, manifestWritten := false, pointer := none }
  else
    { exitCode := 0
      manifestWritten := true
      pointer :=
        if options.isGlobal then none
        else if env.oacExists then none
        else some { version := "1", root := ".claude/context" } }

/-! ## Concrete environments for witnesses and counterexamples -/

def emptyManifest : Manifest :=
  { version := "1.0.0"
    profile := .name .essential
    source := { repository := GITHUB_REPO, branch := GITHUB_BRANCH
                commit := "", downloaded_at := "" }
    context := [] }

/-- Everything in place and every external step succeeding, no manifest
and no pointer yet. -/
def allOkEnv : InstallEnv :=
  { gitAvailable := true
    manifestExists := false
    existingManifest := emptyManifest
    registry := sampleRegistry
    fetchOk := true
    cloneOk := true
    sparseOk := true
    subtreePresent := true
    copyOk := true
    oacExists := false
    scratchExists := false }

/-- A manifest already present, git available. -/
def gateEnv : InstallEnv := { allOkEnv with manifestExists := true }

/-- A manifest already present but git missing. -/
def gateEnvNoGit : InstallEnv := { gateEnv with gitAvailable := false }

/-- Clone succeeds but the `sparse-checkout set` step fails. -/
def sparseFailEnv : InstallEnv := { allOkEnv with sparseOk := false }

/-- C2 counterexample: a run whose clone succeeds and whose
sparse-checkout configuration fails creates the scratch directory,
returns failure, and leaves the scratch directory on disk — the claimed
guaranteed cleanup does not happen on this failure path. -/
theorem scratch_left_on_sparse_failure :
    (installContext "/plugin" {} sparseFailEnv).effects.transportInvoked
        = true ∧
    (installContext "/plugin" {} sparseFailEnv).success = false ∧
    (installContext "/plugin" {} sparseFailEnv).effects.scratchExistsAfter
        = true := by
  refine ⟨rfl, rfl, rfl⟩

/-- C2 amended: cleanup of the scratch directory is guaranteed on the
success path only — whenever a run that invoked the transport returns
success, the scratch directory is gone; a failing run may leave it (it
is wiped again at the start of the next `sparseClone`). -/
theorem scratch_removed_on_success :
    ∀ (pluginRoot : String) (options : InstallOptions) (env : InstallEnv),
      (installContext pluginRoot options env).effects.transportInvoked = true →
      (installContext pluginRoot options env).success = true →
      (installContext pluginRoot options env).effects.scratchExistsAfter
        = false := by
  intro pluginRoot options env h1 h2
  unfold installContext sparseCloneScratch at h1 h2 ⊢
  split_ifs at h1 h2 ⊢
  all_goals first
    | rfl
    | exact absurd h1 Bool.false_ne_true
    | exact absurd h2 Bool.false_ne_true

/-- Witness for the amended C2 at a fully successful run. -/
theorem scratch_removed_on_success_witness :
    (installContext "/plugin" {} allOkEnv).effects.scratchExistsAfter
      = false :=
  scratch_removed_on_success "/plugin" {} allOkEnv rfl rfl

/-- C3 counterexample: the TypeScript installer checks git availability
before the idempotency gate, so with git missing a run against an
existing manifest returns failure instead of the claimed success (the
Node and shell variants gate first and exit 0). -/
theorem manifest_gate_fails_without_git :
    gateEnvNoGit.manifestExists = true ∧
    ({} : InstallOptions).force = false ∧
    (installContext "/plugin" {} gateEnvNoGit).success = false := by
  refine ⟨rfl, rfl, rfl⟩

/-- C3 amended: with git available, a pre-existing manifest without the
force flag short-circuits the TypeScript installer — no registry fetch,
no transport, no copy, no write of any kind, scratch state untouched,
success reporting the existing manifest's components; the Node
installer short-circuits unconditionally, its gate preceding the git
check. -/
theorem manifest_gate_short_circuits :
    (∀ (pluginRoot : String) (options : InstallOptions) (env : InstallEnv),
        env.gitAvailable = true → env.manifestExists = true →
        options.force = false →
        installContext pluginRoot options env =
          { success := true
            resultComponents := env.existingManifest.context
            effects := { scratchExistsAfter := env.scratchExists } }) ∧
    (∀ (options : JsInstallOptions) (env : JsInstallEnv),
        env.manifestExists = true → options.force = false →
        jsInstall options env =
          { exitCode := 0, manifestWritten := false, pointer := none }) := by
  constructor
  · intro pluginRoot options env hgit hman hforce
    unfold installContext
    rw [if_neg (by simp [hgit]), if_pos (by simp [hman, hforce])]
  · intro options env hman hforce
    unfold jsInstall
    rw [if_pos (by simp [hman, hforce])]

/-- Witness for the amended C3 at concrete environments. -/
theorem manifest_gate_short_circuits_witness :
    installContext "/plugin" {} gateEnv =
      { success := true
        resultComponents := []
        effects := { scratchExistsAfter := false } } ∧
    jsInstall {} { gitAvailable := true, manifestExists := true
                   cloneOk := true, sparseOk := true
                   subtreePresent := true, copyOk := true
                   oacExists := false } =
      { exitCode := 0, manifestWritten := false, pointer := none } :=
  ⟨manifest_gate_short_circuits.1 "/plugin" {} gateEnv rfl rfl rfl,
   manifest_gate_short_circuits.2 {} _ rfl rfl⟩

/-- C4: dry-run purity.  With `dryRun` set the installer never invokes
the transport or the copy, writes neither manifest nor pointer, and
leaves the scratch state untouched; and past the idempotency gate, with
the git check and the registry fetch succeeding, the dry run reports
exactly the filtered component list that a real install of the same
options returns when it completes. -/
theorem dryRun_pure :
    ∀ (pluginRoot : String) (options : InstallOptions) (env : InstallEnv),
      options.dryRun = true →
      ((installContext pluginRoot options env).effects.transportInvoked
          = false ∧
       (installContext pluginRoot options env).effects.copyInvoked = false ∧
       (installContext pluginRoot options env).effects.manifestWritten
          = false ∧
       (installContext pluginRoot options env).effects.oacWritten = false ∧
       (installContext pluginRoot options env).effects.scratchExistsAfter
          = env.scratchExists) ∧
      (env.gitAvailable = true → env.fetchOk = true →
       (env.manifestExists && !options.force) = false →
       (installContext pluginRoot options env).resultComponents =
         (selectComponents options env.registry).map
           (toManifestComponent (joinPath pluginRoot "context")) ∧
       ((installContext pluginRoot { options with dryRun := false }
             env).effects.manifestWritten = true →
        (installContext pluginRoot { options with dryRun := false }
             env).resultComponents =
          (installContext pluginRoot options env).resultComponents)) := by
  intro pluginRoot options env hdry
  obtain ⟨prof, custom, dry, force⟩ := options
  obtain ⟨git, mex, eman, reg, fok, cok, sok, sub, cpok, oac, scr⟩ := env
  cases dry
  · exact absurd hdry Bool.false_ne_true
  constructor
  · cases git <;> cases mex <;> cases force <;> cases fok <;>
      exact ⟨rfl, rfl, rfl, rfl, rfl⟩
  · intro hgit hfok hgate
    cases git
    · exact absurd hgit Bool.false_ne_true
    cases fok
    · exact absurd hfok Bool.false_ne_true
    cases mex <;> cases force
    · exact ⟨rfl, fun hreal => by
        cases cok <;> cases sok <;> cases sub <;> cases cpok <;>
          first | rfl | exact absurd hreal Bool.false_ne_true⟩
    · exact ⟨rfl, fun hreal => by
        cases cok <;> cases sok <;> cases sub <;> cases cpok <;>
          first | rfl | exact absurd hreal Bool.false_ne_true⟩
    · exact absurd hgate.symm Bool.false_ne_true
    · exact ⟨rfl, fun hreal => by
        cases cok <;> cases sok <;> cases sub <;> cases cpok <;>
          first | rfl | exact absurd hreal Bool.false_ne_true⟩

/-- Witness for C4: at a fully healthy environment the dry run writes
nothing and reports the same component list as the real run. -/
theorem dryRun_pure_witness :
    (installContext "/plugin" { dryRun := true } allOkEnv).effects.manifestWritten
        = false ∧
    (installContext "/plugin" { dryRun := false } allOkEnv).resultComponents =
      (installContext "/plugin" { dryRun := true } allOkEnv).resultComponents :=
  ⟨(dryRun_pure "/plugin" { dryRun := true } allOkEnv rfl).1.2.2.1,
   ((dryRun_pure "/plugin" { dryRun := true } allOkEnv rfl).2 rfl rfl
      rfl).2 rfl⟩

def jsOkEnv : JsInstallEnv :=
  { gitAvailable := true
    manifestExists := false
    cloneOk := true
    sparseOk := true
    subtreePresent := true
    copyOk := true
    oacExists := false }

/-- C7: pointer-config policy.  In the Node installer, a run that wrote
the manifest writes `{ version: "1", context: { root: ".claude/context" } }`
at the project root exactly when the scope is project and no pointer
exists, leaves an existing pointer untouched, and a global-scope run
never writes a pointer under any circumstances; the TypeScript
installer (project scope only) likewise writes `.oac.json` exactly when
it is absent. -/
theorem pointer_write_policy :
    (∀ (options : JsInstallOptions) (env : JsInstallEnv),
        (jsInstall options env).manifestWritten = true →
        (jsInstall options env).pointer =
          (if options.isGlobal || env.oacExists then none
           else some { version := "1", root := ".claude/context" })) ∧
    (∀ (options : JsInstallOptions) (env : JsInstallEnv),
        options.isGlobal = true → (jsInstall options env).pointer = none) ∧
    (∀ (pluginRoot : String) (options : InstallOptions) (env : InstallEnv),
        (installContext pluginRoot options env).effects.manifestWritten
            = true →
        (installContext pluginRoot options env).effects.oacWritten
            = !env.oacExists) := by
  refine ⟨?_, ?_, ?_⟩
  · intro options env h
    obtain ⟨pn, cc, glob, force, dry⟩ := options
    obtain ⟨git, mex, cok, sok, sub, cpok, oac⟩ := env
    cases mex <;> cases force <;> cases git <;> cases dry <;>
      cases cok <;> cases sok <;> cases sub <;> cases cpok <;>
      first
        | exact absurd h Bool.false_ne_true
        | (cases glob <;> cases oac <;> rfl)
  · intro options env hglob
    obtain ⟨pn, cc, glob, force, dry⟩ := options
    obtain ⟨git, mex, cok, sok, sub, cpok, oac⟩ := env
    cases glob
    · exact absurd hglob Bool.false_ne_true
    cases mex <;> cases force <;> cases git <;> cases dry <;>
      cases cok <;> cases sok <;> cases sub <;> cases cpok <;> rfl
  · intro pluginRoot options env h
    obtain ⟨prof, custom, dry, force⟩ := options
    obtain ⟨git, mex, eman, reg, fok, cok, sok, sub, cpok, oac, scr⟩ := env
    cases git <;> cases mex <;> cases force <;> cases fok <;> cases dry <;>
      cases cok <;> cases sok <;> cases sub <;> cases cpok <;>
      first
        | exact absurd h Bool.false_ne_true
        | rfl

/-- Witness for C7 at concrete environments: a fresh project install
writes the pointer, a global install does not, and the TypeScript
installer records the pointer write on a fresh project. -/
theorem pointer_write_policy_witness :
    (jsInstall {} jsOkEnv).pointer =
      some { version := "1", root := ".claude/context" } ∧
    (jsInstall { isGlobal := true } jsOkEnv).pointer = none ∧
    (installContext "/plugin" {} allOkEnv).effects.oacWritten = true :=
  ⟨(pointer_write_policy.1 {} jsOkEnv rfl).trans rfl,
   pointer_write_policy.2.1 { isGlobal := true } jsOkEnv rfl,
   (pointer_write_policy.2.2 "/plugin" {} allOkEnv rfl).trans rfl⟩

/-- C10: `getUniquePaths` returns exactly the distinct nonempty
directory parts (final `/`-separated segment removed) of the
components' paths, without duplicates; a component whose path contains
no `/` (its split on `/` is the singleton of the path itself)
contributes no entry, so no sparse-checkout directory is requested for
it — while the selected component list handed to the manifest is the
full selection, independent of this. -/
theorem getUniquePaths_spec :
    (∀ (cs : List Component), (getUniquePaths cs).Nodup) ∧
    (∀ (cs : List Component) (d : String),
        d ∈ getUniquePaths cs ↔
          d ≠ "" ∧ ∃ c ∈ cs, dirOfPath c.path = d) ∧
    (∀ (pre post : List Component) (c : Component),
        jsSplit c.path '/' = [c.path] →
        getUniquePaths (pre ++ c :: post) = getUniquePaths (pre ++ post)) ∧
    (∀ (pluginRoot : String) (options : InstallOptions) (env : InstallEnv),
        (installContext pluginRoot options env).effects.manifestWritten
            = true →
        (installContext pluginRoot options env).effects.sparsePathsRequested
            = getUniquePaths (selectComponents options env.registry) ∧
        (installContext pluginRoot options env).resultComponents =
          (selectComponents options env.registry).map
            (toManifestComponent (joinPath pluginRoot "context"))) := by
  refine ⟨?_, ?_, ?_, ?_⟩
  · intro cs
    exact nodup_foldl_addPath cs [] List.nodup_nil
  · intro cs d
    unfold getUniquePaths
    rw [mem_foldl_addPath cs [] d]
    simp
  · intro pre post c h
    have hdir : dirOfPath c.path = "" := by
      unfold dirOfPath
      rw [h]
      rfl
    unfold getUniquePaths
    rw [List.foldl_append, List.foldl_append, List.foldl_cons]
    have hstep : addPath (pre.foldl addPath []) c = pre.foldl addPath [] := by
      unfold addPath
      rw [hdir]
      rfl
    rw [hstep]
  · intro pluginRoot options env h
    obtain ⟨prof, custom, dry, force⟩ := options
    obtain ⟨git, mex, eman, reg, fok, cok, sok, sub, cpok, oac, scr⟩ := env
    cases git <;> cases mex <;> cases force <;> cases fok <;> cases dry <;>
      cases cok <;> cases sok <;> cases sub <;> cases cpok <;>
      first
        | exact absurd h Bool.false_ne_true
        | exact ⟨rfl, rfl⟩

/-- Witness for C10 at concrete inputs: the sample component yields its
containing directory, a top-level component adds no sparse path, and a
completed install requests exactly the unique paths while the manifest
keeps the full selection. -/
theorem getUniquePaths_spec_witness :
    (".opencode/context/core/standards" ∈
        getUniquePaths [sampleComponent, rootComponent]) ∧
    getUniquePaths [sampleComponent, rootComponent] =
      getUniquePaths [sampleComponent] ∧
    (installContext "/plugin" {} allOkEnv).effects.sparsePathsRequested =
      getUniquePaths (selectComponents {} allOkEnv.registry) :=
  ⟨(getUniquePaths_spec.2.1 [sampleComponent, rootComponent]
        ".opencode/context/core/standards").mpr
      ⟨by decide, sampleComponent, by decide, rfl⟩,
   getUniquePaths_spec.2.2.1 [sampleComponent] [] rootComponent rfl,
   (getUniquePaths_spec.2.2.2 "/plugin" {} allOkEnv rfl).1⟩

/-! ## Zod schema validation (`scripts/types/registry.ts`), over a small
JSON value type.  Zod defaults, which the schemas rely on: a required
field must be present and well-typed; an `.optional()` field may be
absent but must be well-typed (and non-null) when present; unknown keys
are ignored; `z.record(z.string())` accepts any object whose values are
all strings; `z.array(S)` accepts arrays whose every element passes
`S`. -/

inductive Json where
  | null
  | bool (b : Bool)
  | num (n : Int)
  | str (s : String)
  | arr (elems : List Json)
  | obj (fields : List (String × Json))

/-- Field lookup in a JSON object (`JSON.parse` keeps the last of
duplicate keys, so the last binding wins). -/
def getField (fields : List (String × Json)) (k : String) : Option Json :=
  ((fields.filter (fun f => f.1 = k)).getLast?).map (fun f => f.2)

def parseStr : Json → Option String
  | .str s => some s
  | _ => none

def parseStrList : Json → Option (List String)
  | .arr elems => elems.mapM parseStr
  | _ => none

/-- A required field: must be present and pass the element schema. -/
def reqField {α : Type} (fields : List (String × Json)) (k : String)
    (p : Json → Option α) : Option α :=
  (getField fields k).bind p

/-- An `.optional()` field: absence is fine, presence must pass. -/
def optField {α : Type} (fields : List (String × Json)) (k : String)
    (p : Json → Option α) : Option (Option α) :=
  match getField fields k with
  | none => some none
  | some v => (p v).map some

/-- `ComponentSchema.parse`. -/
def componentSchemaParse : Json → Option Component
  | .obj fields => do
    let id ← reqField fields "id" parseStr
    let name ← reqField fields "name" parseStr
    let ty ← reqField fields "type" parseStr
    let path ← reqField fields "path" parseStr
    let description ← optField fields "description" parseStr
    let tags ← optField fields "tags" parseStrList
    let dependencies ← optField fields "dependencies" parseStrList
    let category ← reqField fields "category" parseStr
    let files ← optField fields "files" parseStrList
    let aliases ← optField fields "aliases" parseStrList
    let version ← optField fields "version" parseStr
    pure { id := id, name := name, type := ty, path := path
           description := description, tags := tags
           dependencies := dependencies, category := category
           files := files, aliases := aliases, version := version }
  | _ => none

def parseComponentList : Json → Option (List Component)
  | .arr elems => elems.mapM componentSchemaParse
  | _ => none

/-- `z.record(z.string())` for the `categories` field. -/
def parseStrRecord : Json → Option (List (String × String))
  | .obj fields =>
      fields.mapM (fun f => (parseStr f.2).map (fun v => (f.1, v)))
  | _ => none

/-- The inner `components` object of `RegistrySchema`: eight optional
arrays of components. -/
def registryComponentsParse : Json → Option RegistryComponents
  | .obj fields => do
    let agents ← optField fields "agents" parseComponentList
    let subagents ← optField fields "subagents" parseComponentList
    let commands ← optField fields "commands" parseComponentList
    let tools ← optField fields "tools" parseComponentList
    let plugins ← optField fields "plugins" parseComponentList
    let skills ← optField fields "skills" parseComponentList
    let contexts ← optField fields "contexts" parseComponentList
    let config ← optField fields "config" parseComponentList
    pure { agents := agents, subagents := subagents, commands := commands
           tools := tools, plugins := plugins, skills := skills
           contexts := contexts, config := config }
  | _ => none

/-- `RegistrySchema.parse`. -/
def registrySchemaParse : Json → Option Registry
  | .obj fields => do
    let version ← reqField fields "version" parseStr
    let schemaVersion ← reqField fields "schema_version" parseStr
    let repository ← reqField fields "repository" parseStr
    let categories ← reqField fields "categories" parseStrRecord
    let components ← reqField fields "components" registryComponentsParse
    pure { version := version, schema_version := schemaVersion
           repository := repository, categories := categories
           components := components }
  | _ => none

/-- `fetchRegistry` (`registry-fetcher.ts`, lines 18–56) with the
transport abstracted away: a document that was retrieved is accepted
exactly when `RegistrySchema.parse` accepts it; no further check runs
between parsing and returning the registry. -/
def fetchRegistry (raw : Json) : Option Registry :=
  registrySchemaParse raw

/-- All component lists of a registry, concatenated. -/
def registryAllComponents (r : Registry) : List Component :=
  r.components.agents.getD [] ++ r.components.subagents.getD [] ++
  r.components.commands.getD [] ++ r.components.tools.getD [] ++
  r.components.plugins.getD [] ++ r.components.skills.getD [] ++
  r.components.contexts.getD [] ++ r.components.config.getD []

/-- The data-model invariant of the spec: every component's `category`
is a key of the `categories` record. -/
def categoriesInvariant (r : Registry) : Bool :=
  (registryAllComponents r).all
    (fun c => r.categories.any (fun kv => kv.1 == c.category))

/-- A context component whose `category` field is the given string. -/
def ghostComponentJson (cat : String) : Json :=
  .obj [("id", .str "ghost"), ("name", .str "Ghost"),
        ("type", .str "context"), ("path", .str "docs/ghost.md"),
        ("category", .str cat)]

/-- A structurally valid registry document whose only component carries
the given category, while `categories` has the single key `core`. -/
def docWithCategory (cat : String) : Json :=
  .obj [("version", .str "1.0.0"), ("schema_version", .str "1.0"),
        ("repository", .str "darrenhinde/OpenAgentsControl"),
        ("categories", .obj [("core", .str "Core docs")]),
        ("components", .obj [("contexts", .arr [ghostComponentJson cat])])]

def registryWithCategory (cat : String) : Registry :=
  { version := "1.0.0"
    schema_version := "1.0"
    repository := "darrenhinde/OpenAgentsControl"
    categories := [("core", "Core docs")]
    components :=
      { contexts := some [{ id := "ghost", name := "Ghost"
                            type := "context", path := "docs/ghost.md"
                            category := cat }] } }

/-- C5 counterexample: a structurally valid document whose only
component's category `phantom` is not a key of `categories` is accepted
by `fetchRegistry`, so passing validation does not establish the
category-key invariant. -/
theorem fetch_accepts_invariant_violation :
    fetchRegistry (docWithCategory "phantom") =
      some (registryWithCategory "phantom") ∧
    categoriesInvariant (registryWithCategory "phantom") = false := by
  exact ⟨rfl, rfl⟩

/-- C5 amended: registry validation is structural only.  A document
with the right shape is accepted whatever string its components carry
as `category` — key of `categories` or not — while a document missing a
required field, or with a mis-typed one, is rejected; so the
category-key invariant is exactly the property of the upstream
document, not something `fetchRegistry` checks. -/
theorem fetch_validation_structural_only :
    (∀ cat : String,
        fetchRegistry (docWithCategory cat) =
          some (registryWithCategory cat)) ∧
    categoriesInvariant (registryWithCategory "core") = true ∧
    fetchRegistry (.obj [("version", .str "1.0.0")]) = none ∧
    fetchRegistry (.str "not an object") = none := by
  exact ⟨fun cat => rfl, rfl, rfl, rfl⟩

/-! ## Profile→category tables of the portable installer variants
(`install-context.js` and `install-context.sh`) -/

/-- The `PROFILES` table of `install-context.js` (lines 27–45). -/
def jsProfiles : String → Option (List String)
  | "core" => some ["core", "openagents-repo"]
  | "full" => some ["core", "openagents-repo", "development", "ui",
      "content-creation", "data", "product", "learning", "project",
      "project-intelligence"]
  | _ => none

/-- The `PROFILE_MAP` of `install-context.js` (lines 48–56): user-facing
profile names to internal profile names; a name outside the map is
rejected at argument parsing (`main`, lines 206–212). -/
def jsProfileMap : String → Option String
  | "essential" => some "core"
  | "standard" => some "core"
  | "extended" => some "full"
  | "specialized" => some "full"
  | "all" => some "full"
  | "core" => some "core"
  | "full" => some "full"
  | _ => none

/-- The categories the Node installer downloads for a user-facing
profile name (`none` when the name is rejected). -/
def jsProfileCategories (p : String) : Option (List String) :=
  (jsProfileMap p).bind jsProfiles

/-- `get_categories` of `install-context.sh` (lines 50–64); an unknown
profile name exits with an error. -/
def shGetCategories : String → Option (List String)
  | "essential" | "standard" | "core" => some ["core", "openagents-repo"]
  | "extended" | "all" | "full" => some ["core", "openagents-repo",
      "development", "ui", "content-creation", "data", "product",
      "learning", "project", "project-intelligence"]
  | _ => none

/-- The category set the TypeScript installer filters on for a profile
(`filterContextByProfile`); `all` bypasses category filtering. -/
def tsProfileCategories (p : Profile) : Option (List String) :=
  if p = .all then none else some (profileCategories p)

/-- C9 counterexample: for the profile name `essential`, accepted by
every variant, the TypeScript installer filters on the categories
`essential, core` while the Node installer downloads the categories
`core, openagents-repo` — different sets (`openagents-repo` is selected
only by the latter), so the variants do not select the same categories. -/
theorem profile_tables_disagree :
    tsProfileCategories .essential = some ["essential", "core"] ∧
    jsProfileCategories "essential" = some ["core", "openagents-repo"] ∧
    "openagents-repo" ∈ (["core", "openagents-repo"] : List String) ∧
    "openagents-repo" ∉ (["essential", "core"] : List String) :=
  ⟨rfl, rfl, by decide, by decide⟩

/-- C9 amended: only the Node and shell variants are near-identical: for
every profile name other than `specialized` (which the shell script
rejects while the Node script maps it to `full`) the two select exactly
the same category list, including rejecting the same unknown names; the
TypeScript variant filters on a different category vocabulary and
matches neither. -/
theorem js_sh_profile_tables_agree :
    ∀ p : String, p ≠ "specialized" →
      jsProfileCategories p = shGetCategories p := by
  intro p hp
  unfold jsProfileCategories jsProfileMap jsProfiles shGetCategories
  split <;>
    first
      | rfl
      | exact absurd rfl hp
      | (split <;> simp_all)

/-- Witness for the amended C9 at the concrete name `essential`. -/
theorem js_sh_profile_tables_agree_witness :
    jsProfileCategories "essential" = shGetCategories "essential" :=
  js_sh_profile_tables_agree "essential" (by decide)

/-! ## Context discovery
(`skills/context-discovery/context-discovery-protocol.md`) -/

/-- The `source` of a discovery result (Return Format table); the
global candidate gets its own tag to keep the candidates apart. -/
inductive DiscoverySource where
  | pointer
  | chainClaude
  | chainContext
  | chainOpencode
  | chainGlobal
  | chainPlugin
  | noSource
deriving DecidableEq, Repr

/-- The three values the protocol always returns: resolved root, the
rule that matched, and the pointer write-back signal. -/
structure DiscoveryResult where
  contextRoot : Option String
  source : DiscoverySource
  writePointer : Bool
deriving DecidableEq, Repr

/-- The filesystem facts discovery consults: the `context.root` of
`.oac.json` when that file exists at the project root, and which
directories contain the expected index file `navigation.md`. -/
structure DiscoveryFS where
  oacRoot : Option String
  hasNavigation : String → Bool

/-- The Step 2 candidates in their fixed order: three project-local
roots, the global per-user root, the plugin fallback.  `home` and
`pluginRoot` abstract the expansions of `~` and of `PLUGIN_ROOT`; the
Boolean marks the project-local candidates, whose match signals the
pointer write (Step 3 table). -/
def discoveryChain (home pluginRoot : String) :
    List (String × DiscoverySource × Bool) :=
  [(".claude/context", .chainClaude, true),
   ("context", .chainContext, true),
   (".opencode/context", .chainOpencode, true),
   (home ++ "/.claude/context", .chainGlobal, false),
   (pluginRoot ++ "/context", .chainPlugin, false)]

/-- Steps 2–4: probe the candidates in order, first match wins; a
project-local match signals the pointer write; no match returns no root
and no signal (and the protocol reports setup guidance, not an error). -/
def runDiscoveryChain (fs : DiscoveryFS) :
    List (String × DiscoverySource × Bool) → DiscoveryResult
  | [] => { contextRoot := none, source := .noSource, writePointer := false }
  | (root, src, projectLocal) :: rest =>
    if fs.hasNavigation root then
      { contextRoot := some root, source := src
        writePointer := projectLocal }
    else runDiscoveryChain fs rest

/-- The full protocol: Step 1 reads `.oac.json` when it exists and
resolves to its `context.root` when that directory still holds
`navigation.md`; a stale pointer falls through to the discovery chain
with a warning; without a pointer the chain runs directly. -/
def resolveContextRoot (fs : DiscoveryFS) (home pluginRoot : String) :
    DiscoveryResult :=
  match fs.oacRoot with
  | some root =>
    if fs.hasNavigation root then
      { contextRoot := some root, source := .pointer, writePointer := false }
    else runDiscoveryChain fs (discoveryChain home pluginRoot)
  | none => runDiscoveryChain fs (discoveryChain home pluginRoot)

/-- C6: fast-path precedence.  Whenever `.oac.json` exists and its
`context.root` directory still contains `navigation.md`, resolution
returns exactly that root with source `pointer` and no write signal —
the discovery chain is never consulted, whatever candidates would also
match. -/
theorem pointer_fast_path_precedence :
    ∀ (fs : DiscoveryFS) (home pluginRoot root : String),
      fs.oacRoot = some root →
      fs.hasNavigation root = true →
      resolveContextRoot fs home pluginRoot =
        { contextRoot := some root, source := .pointer
          writePointer := false } := by
  intro fs home pluginRoot root h1 h2
  unfold resolveContextRoot
  rw [h1]
  exact if_pos h2

/-- A filesystem where both the pointer's root and the first
discovery-chain candidate hold a `navigation.md`. -/
def pointerFS : DiscoveryFS :=
  { oacRoot := some "docs/context"
    hasNavigation := fun s => s == "docs/context" || s == ".claude/context" }

/-- Witness for C6: with a valid pointer and a valid chain candidate
both present, resolution returns the pointer's root. -/
theorem pointer_fast_path_precedence_witness :
    resolveContextRoot pointerFS "/home/user" "/plugin" =
      { contextRoot := some "docs/context", source := .pointer
        writePointer := false } :=
  pointer_fast_path_precedence pointerFS "/home/user" "/plugin"
    "docs/context" rfl rfl
